import Mathlib

/-!
Shallow embedding of the reinforcement-learning subsystem of
`src/fast-api/main.py`: the `GridWorld` environment, the `QLearningAgent`,
and the three service operations `take_step` (`/rl/step`), `reset_agent`
(`/rl/reset`) and `get_best_action` (`/rl/best_action`).

Conventions of the embedding:
- Python integers become `Int`; `divmod(state, size)` becomes
  `Int.fdiv` / `Int.fmod`, which are Python floor division and modulus.
- Float rewards and hyperparameters become exact rationals
  (`0.1 = 1/10`, `0.995 = 995/1000`, and so on).
- The numpy array `q_table` of shape `(16, 4)` becomes a total map
  `Int → Nat → ℚ`, zero-initialised; every index the service ever uses
  stays inside `[0,16) × [0,4)` (proved below), where the map and the
  array agree.
- The module-level mutable singletons become explicit state passing:
  each endpoint maps the agent before the call to the agent after it,
  together with the response; an `HTTPException` raised before any
  mutation becomes `Except.error` paired with the unchanged agent.
-/

/-- The grid environment configuration: side length and goal cell,
fixed at construction (`GridWorld.__init__`, defaults `size=4`,
`goal_state=15`). -/
structure GridWorld where
  size : Int
  goal_state : Int

/-- `GridWorld.step` (main.py lines 169-188): decompose the state into
`(row, col)` by `divmod`, move only when the action is legal at that
position, otherwise stay; reward `-0.1` for a no-op, `+1.0` for reaching
the goal, `-0.01` otherwise; done iff the next state is the goal. -/
def GridWorld.step (g : GridWorld) (state : Int) (action : String) : Int × ℚ × Bool :=
  let row := Int.fdiv state g.size
  let col := Int.fmod state g.size
  let next_state :=
    if action = "up" ∧ 0 < row then state - g.size
    else if action = "right" ∧ col < g.size - 1 then state + 1
    else if action = "down" ∧ row < g.size - 1 then state + g.size
    else if action = "left" ∧ 0 < col then state - 1
    else state
  let reward : ℚ :=
    if next_state = state then -(1/10)
    else if next_state = g.goal_state then 1 else -(1/100)
  let done : Bool := decide (next_state = g.goal_state)
  (next_state, reward, done)

/-- The module-level environment singleton `grid_env = GridWorld()`. -/
def grid_env : GridWorld := { size := 4, goal_state := 15 }

/-- The fixed action list `self.actions = ['up', 'right', 'down', 'left']`. -/
def rlActions : List String := ["up", "right", "down", "left"]

/-- `QLearningAgent` state: the value table, the three scalar
hyperparameters and the current cell (`QLearningAgent.__init__`). -/
structure QLearningAgent where
  q_table : Int → Nat → ℚ
  alpha : ℚ
  gamma : ℚ
  epsilon : ℚ
  state : Int

/-- One fold step of `np.argmax`: keep the current best index unless the
candidate is strictly greater (ties keep the earlier index). -/
def argStep (row : Nat → ℚ) (best i : Nat) : Nat :=
  if row i > row best then i else best

/-- `np.argmax` over a 4-entry row of the value table: the first index
attaining the maximum. -/
def argmaxRow (row : Nat → ℚ) : Nat :=
  argStep row (argStep row (argStep row 0 1) 2) 3

/-- The maximum of a 4-entry row, `max(q_table[n])`. -/
def maxRow (row : Nat → ℚ) : ℚ :=
  max (max (max (row 0) (row 1)) (row 2)) (row 3)

/-- `QLearningAgent.update` (main.py lines 205-209): the tabular
Q-learning rule.  The whole right-hand side is computed from the table
before the assignment, then the single entry `(state, action)` is
overwritten. -/
def QLearningAgent.update (ag : QLearningAgent) (state : Int) (action : Nat)
    (reward : ℚ) (next_state : Int) : QLearningAgent :=
  let best_next_action := argmaxRow (ag.q_table next_state)
  { ag with q_table := fun s a =>
      if s = state ∧ a = action then
        ag.q_table state action + ag.alpha *
          (reward + ag.gamma * ag.q_table next_state best_next_action
            - ag.q_table state action)
      else ag.q_table s a }

/-- `QLearningAgent.set_state`. -/
def QLearningAgent.set_state (ag : QLearningAgent) (s : Int) : QLearningAgent :=
  { ag with state := s }

/-- The module-level agent singleton `agent = QLearningAgent()` at process
start: zero table, `alpha=0.1`, `gamma=0.9`, `epsilon=0.1`, state `0`. -/
def agent : QLearningAgent :=
  { q_table := fun _ _ => 0
    alpha := 1/10
    gamma := 9/10
    epsilon := 1/10
    state := 0 }

/-- Response body of a successful `/rl/step` call. -/
structure StepResponse where
  current_state : Int
  action : String
  next_state : Int
  reward : ℚ
  is_terminal : Bool

/-- The `/rl/step` endpoint `take_step` (main.py lines 229-252): reject
an action outside the fixed set before any mutation; otherwise ask the
environment for the transition, apply the value update with the reward
and next state the environment produced, advance the current cell, and
decay epsilon by `max(epsilon * 0.995, 0.01)`. -/
def take_step (ag : QLearningAgent) (action : String) :
    QLearningAgent × Except String StepResponse :=
  let current_state := ag.state
  if action ∈ rlActions then
    let action_idx := rlActions.indexOf action
    let out := grid_env.step current_state action
    let next_state := out.1
    let reward := out.2.1
    let done := out.2.2
    let ag1 := ag.update current_state action_idx reward next_state
    let ag2 := (ag1.set_state next_state)
    let ag3 := { ag2 with epsilon := max (ag2.epsilon * (995/1000)) (1/100) }
    (ag3, Except.ok
      { current_state := current_state
        action := action
        next_state := next_state
        reward := reward
        is_terminal := done })
  else
    (ag, Except.error "Invalid action. Choose from up, right, down, left.")

/-- The `/rl/reset` endpoint `reset_agent` (main.py lines 254-257):
set the current cell to 0 and acknowledge; nothing else is touched. -/
def reset_agent (ag : QLearningAgent) : QLearningAgent × String :=
  (ag.set_state 0, "Agent reset to initial state (0).")

/-- The `/rl/best_action` endpoint `get_best_action` (main.py lines
259-267): reject a state outside `[0, 16)`; otherwise return the argmax
action of that row.  The agent is never mutated. -/
def get_best_action (ag : QLearningAgent) (state : Int) :
    QLearningAgent × Except String (Int × String) :=
  if 0 ≤ state ∧ state < 16 then
    let action_idx := argmaxRow (ag.q_table state)
    (ag, Except.ok (state, rlActions.getD action_idx ""))
  else
    (ag, Except.error "Invalid state. Must be between 0 and 15.")

/-- One external request to the RL service. -/
inductive RLRequest where
  | step (action : String)
  | reset
  | bestAction (state : Int)

/-- The agent state after serving one request. -/
def execRequest (ag : QLearningAgent) : RLRequest → QLearningAgent
  | .step a => (take_step ag a).1
  | .reset => (reset_agent ag).1
  | .bestAction s => (get_best_action ag s).1

/-- The agent state after serving a sequence of requests. -/
def execRequests (ag : QLearningAgent) (l : List RLRequest) : QLearningAgent :=
  l.foldl execRequest ag

/-! ### Helper lemmas -/

lemma maxRow_le_argmaxRow (row : Nat → ℚ) : maxRow row ≤ row (argmaxRow row) := by
  unfold maxRow argmaxRow argStep
  split_ifs <;> push_neg at * <;> simp only [max_le_iff] <;>
    refine ⟨⟨⟨?_, ?_⟩, ?_⟩, ?_⟩ <;> linarith

lemma argmaxRow_le_maxRow (row : Nat → ℚ) : row (argmaxRow row) ≤ maxRow row := by
  unfold maxRow argmaxRow argStep
  split_ifs <;> simp [le_max_iff, le_refl]

/-- `np.argmax` of a row attains the row maximum: the value read back at
the argmax index is `max(q_table[n])`. -/
lemma argmaxRow_achieves (row : Nat → ℚ) : row (argmaxRow row) = maxRow row :=
  le_antisymm (argmaxRow_le_maxRow row) (maxRow_le_argmaxRow row)

lemma step_state_bounds (c : Int) (a : String) (h0 : 0 ≤ c) (h1 : c < 16)
    (ha : a ∈ rlActions) :
    0 ≤ (grid_env.step c a).1 ∧ (grid_env.step c a).1 < 16 := by
  fin_cases ha <;> interval_cases c <;> decide

lemma get_best_action_fst (ag : QLearningAgent) (s : Int) :
    (get_best_action ag s).1 = ag := by
  unfold get_best_action
  split_ifs <;> rfl

lemma take_step_neg_eq (ag : QLearningAgent) (a : String) (ha : a ∉ rlActions) :
    take_step ag a =
      (ag, Except.error "Invalid action. Choose from up, right, down, left.") := by
  unfold take_step
  rw [if_neg ha]

lemma take_step_fst_q (ag : QLearningAgent) (a : String) (ha : a ∈ rlActions) :
    (take_step ag a).1.q_table =
      (ag.update ag.state (rlActions.indexOf a) ((grid_env.step ag.state a).2.1)
        ((grid_env.step ag.state a).1)).q_table := by
  unfold take_step
  rw [if_pos ha]
  rfl

lemma take_step_fst_state (ag : QLearningAgent) (a : String) (ha : a ∈ rlActions) :
    (take_step ag a).1.state = (grid_env.step ag.state a).1 := by
  unfold take_step
  rw [if_pos ha]
  rfl

lemma take_step_fst_epsilon (ag : QLearningAgent) (a : String) (ha : a ∈ rlActions) :
    (take_step ag a).1.epsilon = max (ag.epsilon * (995/1000)) (1/100) := by
  unfold take_step
  rw [if_pos ha]
  rfl

lemma execRequest_state_bounds (ag : QLearningAgent) (r : RLRequest)
    (h0 : 0 ≤ ag.state) (h1 : ag.state < 16) :
    0 ≤ (execRequest ag r).state ∧ (execRequest ag r).state < 16 := by
  cases r with
  | step a =>
    by_cases ha : a ∈ rlActions
    · have h := take_step_fst_state ag a ha
      simp only [execRequest, h]
      exact step_state_bounds ag.state a h0 h1 ha
    · simp only [execRequest, take_step_neg_eq ag a ha]
      exact ⟨h0, h1⟩
  | reset =>
    have h : (execRequest ag RLRequest.reset).state = 0 := rfl
    rw [h]
    exact ⟨le_refl 0, by norm_num⟩
  | bestAction s =>
    simp only [execRequest, get_best_action_fst]
    exact ⟨h0, h1⟩

lemma execRequests_state_bounds (l : List RLRequest) :
    ∀ ag : QLearningAgent, 0 ≤ ag.state → ag.state < 16 →
      0 ≤ (execRequests ag l).state ∧ (execRequests ag l).state < 16 := by
  induction l with
  | nil => exact fun ag h0 h1 => ⟨h0, h1⟩
  | cons r t ih =>
    intro ag h0 h1
    have h := execRequest_state_bounds ag r h0 h1
    exact ih (execRequest ag r) h.1 h.2

lemma execRequest_epsilon_ge (ag : QLearningAgent) (r : RLRequest)
    (h : 1/100 ≤ ag.epsilon) : 1/100 ≤ (execRequest ag r).epsilon := by
  cases r with
  | step a =>
    by_cases ha : a ∈ rlActions
    · simp only [execRequest, take_step_fst_epsilon ag a ha]
      exact le_max_right _ _
    · simp only [execRequest, take_step_neg_eq ag a ha]
      exact h
  | reset => exact h
  | bestAction s =>
    simp only [execRequest, get_best_action_fst]
    exact h

lemma execRequests_epsilon_ge (l : List RLRequest) :
    ∀ ag : QLearningAgent, 1/100 ≤ ag.epsilon →
      1/100 ≤ (execRequests ag l).epsilon := by
  induction l with
  | nil => exact fun ag h => h
  | cons r t ih =>
    intro ag h
    exact ih (execRequest ag r) (execRequest_epsilon_ge ag r h)

/-! ### Claims -/

/-- C1: for every cell in `[0, 16)` and each of the four actions, the
environment's step moves by the boundary-blocked rule: `up` only if
`row > 0` to `cell - 4`, `right` only if `col < 3` to `cell + 1`,
`down` only if `row < 3` to `cell + 4`, `left` only if `col > 0` to
`cell - 1`, with `(row, col) = (cell div 4, cell mod 4)`; an illegal
action leaves the cell unchanged. -/
theorem claim_C1 (c : Int) (h0 : 0 ≤ c) (h1 : c < 16) :
    (grid_env.step c "up").1 = (if 0 < Int.fdiv c 4 then c - 4 else c)
  ∧ (grid_env.step c "right").1 = (if Int.fmod c 4 < 3 then c + 1 else c)
  ∧ (grid_env.step c "down").1 = (if Int.fdiv c 4 < 3 then c + 4 else c)
  ∧ (grid_env.step c "left").1 = (if 0 < Int.fmod c 4 then c - 1 else c) := by
  interval_cases c <;> decide

/-- Witness for C1 at cell 5. -/
theorem claim_C1_witness :
    (grid_env.step 5 "up").1 = (if 0 < Int.fdiv 5 4 then 5 - 4 else 5)
  ∧ (grid_env.step 5 "right").1 = (if Int.fmod 5 4 < 3 then 5 + 1 else 5)
  ∧ (grid_env.step 5 "down").1 = (if Int.fdiv 5 4 < 3 then 5 + 4 else 5)
  ∧ (grid_env.step 5 "left").1 = (if 0 < Int.fmod 5 4 then 5 - 1 else 5) :=
  claim_C1 5 (by decide) (by decide)

/-- C2: for every cell and action the reward follows the three-way
precedence (no-op `-0.1`, then goal `+1.0`, then `-0.01`), the terminal
flag holds exactly when the next cell is the goal, and in particular a
no-op at the goal cell 15 yields reward `-0.1` with `is_terminal = true`. -/
theorem claim_C2 (c : Int) (a : String) :
    (grid_env.step c a).2.1 =
      (if (grid_env.step c a).1 = c then -(1/10)
       else if (grid_env.step c a).1 = 15 then 1 else -(1/100))
  ∧ ((grid_env.step c a).2.2 = true ↔ (grid_env.step c a).1 = 15)
  ∧ grid_env.step 15 "right" = (15, -(1/10), true) := by
  refine ⟨rfl, ?_, rfl⟩
  exact decide_eq_true_iff

/-- C3: the value update changes the entry `(c, a)` by exactly
`alpha * (r + gamma * max(table[n]) - table[c][a])`, and a successful
external step applies this update exactly once, with the reward and next
cell the environment produced for that interaction. -/
theorem claim_C3 (ag : QLearningAgent) (c n : Int) (a : Nat) (r : ℚ)
    (hc : 0 ≤ c ∧ c < 16) (hn : 0 ≤ n ∧ n < 16) (ha : a < 4) :
    (ag.update c a r n).q_table c a - ag.q_table c a
      = ag.alpha * (r + ag.gamma * maxRow (ag.q_table n) - ag.q_table c a)
  ∧ ∀ (ag2 : QLearningAgent) (act : String), act ∈ rlActions →
      (take_step ag2 act).1.q_table
        = (ag2.update ag2.state (rlActions.indexOf act)
            ((grid_env.step ag2.state act).2.1)
            ((grid_env.step ag2.state act).1)).q_table := by
  constructor
  · have h : (ag.update c a r n).q_table c a
        = ag.q_table c a + ag.alpha *
            (r + ag.gamma * ag.q_table n (argmaxRow (ag.q_table n))
              - ag.q_table c a) := by
      simp [QLearningAgent.update]
    rw [h, argmaxRow_achieves (ag.q_table n)]
    ring
  · intro ag2 act hmem
    exact take_step_fst_q ag2 act hmem

/-- Witness for C3 at the initial agent, `c = 2`, `n = 3`, `a = 1`,
`r = 5`, and a step with action `up`. -/
theorem claim_C3_witness :
    ((agent.update 2 1 5 3).q_table 2 1 - agent.q_table 2 1
      = agent.alpha * (5 + agent.gamma * maxRow (agent.q_table 3)
          - agent.q_table 2 1))
  ∧ (take_step agent "up").1.q_table
      = (agent.update agent.state (rlActions.indexOf "up")
          ((grid_env.step agent.state "up").2.1)
          ((grid_env.step agent.state "up").1)).q_table := by
  have h := claim_C3 agent 2 3 1 5 (by decide) (by decide) (by decide)
  exact ⟨h.1, h.2 agent "up" (by decide)⟩

/-- C4: the exploration rate decays by `max(epsilon * 0.995, 0.01)` on
every successful step, unconditionally; it is monotone non-increasing
(given the invariant `epsilon ≥ 0.01`, which the initial agent satisfies
and every operation preserves), and it never drops below `0.01` over any
request sequence from the initial agent. -/
theorem claim_C4 (ag : QLearningAgent) (a : String) (reqs : List RLRequest)
    (h : 1/100 ≤ ag.epsilon) :
    (take_step ag a).1.epsilon ≤ ag.epsilon
  ∧ 1/100 ≤ (take_step ag a).1.epsilon
  ∧ (a ∈ rlActions →
      (take_step ag a).1.epsilon = max (ag.epsilon * (995/1000)) (1/100))
  ∧ 1/100 ≤ (execRequests agent reqs).epsilon := by
  have hinit : (1:ℚ)/100 ≤ agent.epsilon := by norm_num [agent]
  by_cases hm : a ∈ rlActions
  · have he := take_step_fst_epsilon ag a hm
    refine ⟨?_, ?_, fun _ => he, execRequests_epsilon_ge reqs agent hinit⟩
    · rw [he]
      apply max_le
      · linarith
      · exact h
    · rw [he]
      exact le_max_right _ _
  · have he : (take_step ag a).1 = ag := by rw [take_step_neg_eq ag a hm]
    rw [he]
    exact ⟨le_refl _, h, fun hmem => absurd hmem hm,
      execRequests_epsilon_ge reqs agent hinit⟩

/-- Witness for C4 at the initial agent, action `up`, and the request
sequence [step up, reset]. -/
theorem claim_C4_witness :
    (take_step agent "up").1.epsilon ≤ agent.epsilon
  ∧ 1/100 ≤ (take_step agent "up").1.epsilon
  ∧ ("up" ∈ rlActions →
      (take_step agent "up").1.epsilon = max (agent.epsilon * (995/1000)) (1/100))
  ∧ 1/100 ≤ (execRequests agent [RLRequest.step "up", RLRequest.reset]).epsilon :=
  claim_C4 agent "up" [RLRequest.step "up", RLRequest.reset] (by norm_num [agent])

/-- C5: the environment's step never leaves the grid for in-range cells
and actions of the fixed set, and from the initial agent the current
cell stays in `[0, 16)` after any sequence of requests. -/
theorem claim_C5 (c : Int) (a : String) (reqs : List RLRequest)
    (h0 : 0 ≤ c) (h1 : c < 16) (ha : a ∈ rlActions) :
    (0 ≤ (grid_env.step c a).1 ∧ (grid_env.step c a).1 < 16)
  ∧ (0 ≤ (execRequests agent reqs).state ∧ (execRequests agent reqs).state < 16) :=
  ⟨step_state_bounds c a h0 h1 ha,
    execRequests_state_bounds reqs agent (by decide) (by decide)⟩

/-- Witness for C5 at cell 3, action `down`, request sequence
[step right, step down, reset, best_action 7]. -/
theorem claim_C5_witness :
    (0 ≤ (grid_env.step 3 "down").1 ∧ (grid_env.step 3 "down").1 < 16)
  ∧ (0 ≤ (execRequests agent
        [RLRequest.step "right", RLRequest.step "down", RLRequest.reset,
          RLRequest.bestAction 7]).state
      ∧ (execRequests agent
        [RLRequest.step "right", RLRequest.step "down", RLRequest.reset,
          RLRequest.bestAction 7]).state < 16) :=
  claim_C5 3 "down"
    [RLRequest.step "right", RLRequest.step "down", RLRequest.reset,
      RLRequest.bestAction 7] (by decide) (by decide) (by decide)

/-- C6: a step with an action outside the fixed set and a best-action
query with an out-of-range cell are both rejected with an error, and the
agent (value table, current cell, exploration rate) is exactly as it was
before the call. -/
theorem claim_C6 (ag : QLearningAgent) (a : String) (s : Int)
    (ha : a ∉ rlActions) (hs : ¬(0 ≤ s ∧ s < 16)) :
    ((take_step ag a).1 = ag ∧ ∃ e, (take_step ag a).2 = Except.error e)
  ∧ ((get_best_action ag s).1 = ag
      ∧ ∃ e, (get_best_action ag s).2 = Except.error e) := by
  have ht := take_step_neg_eq ag a ha
  refine ⟨⟨by rw [ht], ?_⟩, get_best_action_fst ag s, ?_⟩
  · exact ⟨"Invalid action. Choose from up, right, down, left.", by rw [ht]⟩
  · refine ⟨"Invalid state. Must be between 0 and 15.", ?_⟩
    unfold get_best_action
    rw [if_neg hs]

/-- Witness for C6 with the unknown action `fly` and the out-of-range
cell 99. -/
theorem claim_C6_witness :
    ((take_step agent "fly").1 = agent
      ∧ ∃ e, (take_step agent "fly").2 = Except.error e)
  ∧ ((get_best_action agent 99).1 = agent
      ∧ ∃ e, (get_best_action agent 99).2 = Except.error e) :=
  claim_C6 agent "fly" 99 (by decide) (by decide)

/-- C7: reset always succeeds, sets the current cell to 0, and leaves
every value-table entry and the exploration rate unchanged. -/
theorem claim_C7 (ag : QLearningAgent) :
    (reset_agent ag).1.state = 0
  ∧ (∀ s a, (reset_agent ag).1.q_table s a = ag.q_table s a)
  ∧ (reset_agent ag).1.epsilon = ag.epsilon
  ∧ (reset_agent ag).2 = "Agent reset to initial state (0)." :=
  ⟨rfl, fun _ _ => rfl, rfl, rfl⟩

/-- C8 counterexample: the claimed trajectory is impossible — stepping
`right` from cell 0 reaches cell 1, not cell 5. -/
theorem claim_C8_cex :
    (grid_env.step 0 "right").1 = 1 ∧ (grid_env.step 0 "right").1 ≠ 5 := by
  decide

/-- C8 (amended): stepping `right`, `down`, `right`, `down` from cell 0
reaches cells 1, 5, 6, 10 in that order, none terminal, each with reward
`-0.01`; and from cell 14 the action `right` is legal (column 2 < 3),
reaching cell 15 with reward `+1.0` and `is_terminal = true`. -/
theorem claim_C8_amended :
    grid_env.step 0 "right" = (1, -(1/100), false)
  ∧ grid_env.step 1 "down" = (5, -(1/100), false)
  ∧ grid_env.step 5 "right" = (6, -(1/100), false)
  ∧ grid_env.step 6 "down" = (10, -(1/100), false)
  ∧ grid_env.step 14 "right" = (15, 1, true) :=
  ⟨rfl, rfl, rfl, rfl, rfl⟩

/-- C9: the environment's step is total over all integer states and all
action strings, and any string outside the fixed action set is treated
as a no-op: the next cell equals the current cell, the reward is `-0.1`,
and the terminal flag still reports whether the cell is the goal. -/
theorem claim_C9 (s : Int) (a : String) (h : a ∉ rlActions) :
    grid_env.step s a = (s, -(1/10), decide (s = 15)) := by
  simp only [rlActions, List.mem_cons, List.mem_singleton, not_or] at h
  obtain ⟨h1, h2, h3, h4⟩ := h
  simp [GridWorld.step, grid_env, h1, h2, h3, h4]

/-- Witness for C9 with the unknown action `jump` at cell 3. -/
theorem claim_C9_witness :
    grid_env.step 3 "jump" = (3, -(1/10), false) :=
  (claim_C9 3 "jump" (by decide)).trans rfl

/-- C10: the value update mutates only the single entry `(c, a)`: every
other table entry, the learning rate, the discount factor, the
exploration rate, and the current cell are unchanged. -/
theorem claim_C10 (ag : QLearningAgent) (c : Int) (a : Nat) (r : ℚ) (n : Int) :
    (∀ s b, ¬(s = c ∧ b = a) → (ag.update c a r n).q_table s b = ag.q_table s b)
  ∧ (ag.update c a r n).alpha = ag.alpha
  ∧ (ag.update c a r n).gamma = ag.gamma
  ∧ (ag.update c a r n).epsilon = ag.epsilon
  ∧ (ag.update c a r n).state = ag.state := by
  refine ⟨?_, rfl, rfl, rfl, rfl⟩
  intro s b hsb
  simp only [QLearningAgent.update]
  rw [if_neg hsb]

/-- Witness for C10 at the initial agent, updating entry `(0, 0)` and
reading back entry `(1, 2)`. -/
theorem claim_C10_witness :
    (agent.update 0 0 1 5).q_table 1 2 = agent.q_table 1 2
  ∧ (agent.update 0 0 1 5).epsilon = agent.epsilon := by
  have h := claim_C10 agent 0 0 1 5
  exact ⟨h.1 1 2 (by decide), h.2.2.2.1⟩
